import Mathlib

/-! Order Service: the `orders` schema validator, its indexes and the bootstrap script.

A shallow embedding of `init-mongo.js`.  The script is declarative: it hands a
`$jsonSchema` validator, six index key patterns and three literal documents to the
database server.  The definitions below are

* the BSON value model the validator ranges over,
* the `$jsonSchema` keywords the script uses (`bsonType`, `required`, `properties`,
  `minItems`, `items`, `enum`, `minimum`, `description`) with the server's meaning,
* the validator, index list and sample documents, transcribed from the script,
* the shell commands the script issues (`createUser`, `createCollection`,
  `createIndex`, `insertMany`) as transitions on an explicit database state.

Conventions of the model:

* a finite number is kept as a decimal `mant / 10 ^ scale`; every finite double is such a
  decimal, and the only numeric tests of the schema compare against the integers `0` and
  `1`, which rounding a decimal literal to the nearest double cannot cross;
* numbers are ordered as the server orders them: `NaN` sorts below every number;
* a violation report lists every keyword that failed, each with the path of the value it
  failed on, in the way the server fills `errInfo.details`;
* a script literal is converted the way `mongosh` serialises a JavaScript number: an
  integral value in the 32-bit range becomes a BSON `int`, anything else a `double`;
* an uncaught error of a shell command ends the script; what the server did before stays.
-/

namespace OrderService

/-! ## BSON values -/

/-- Numeric payload of a BSON `double` or `decimal`: the decimal `mant / 10 ^ scale`, or one
of the three special values. -/
inductive Num where
  | fin (mant : Int) (scale : Nat)
  | nan
  | posInf
  | negInf

/-- The test `d ≥ n` for an integer bound `n`, in the server's order (`NaN` is below every
number). -/
def Num.geInt : Num → Int → Bool
  | .fin m s, n => decide (n * 10 ^ s ≤ m)
  | .nan, _ => false
  | .posInf, _ => true
  | .negInf, _ => false

/-- Numeric equality by value, `NaN` being equal to itself. -/
def Num.eqv : Num → Num → Bool
  | .fin m s, .fin m2 s2 => decide (m * 10 ^ s2 = m2 * 10 ^ s)
  | .nan, .nan => true
  | .posInf, .posInf => true
  | .negInf, .negInf => true
  | _, _ => false

/-- A BSON value. -/
inductive Bson where
  | double (d : Num)
  | string (s : String)
  | object (fields : List (String × Bson))
  | array (elems : List Bson)
  | objectId (n : Nat)
  | bool (b : Bool)
  | date (ms : Int)
  | null
  | int (i : Int)
  | long (i : Int)
  | decimal (d : Num)

/-- The type aliases a `bsonType` keyword may name. -/
inductive BsonType where
  | double
  | string
  | object
  | array
  | objectId
  | bool
  | date
  | null
  | int
  | long
  | decimal
deriving DecidableEq

/-- The BSON type of a value. -/
def Bson.typeOf : Bson → BsonType
  | .double _ => .double
  | .string _ => .string
  | .object _ => .object
  | .array _ => .array
  | .objectId _ => .objectId
  | .bool _ => .bool
  | .date _ => .date
  | .null => .null
  | .int _ => .int
  | .long _ => .long
  | .decimal _ => .decimal

/-- The number a numeric value stands for; `none` for a value of a non-numeric type. -/
def Bson.num : Bson → Option Num
  | .double d => some d
  | .decimal d => some d
  | .int i => some (.fin i 0)
  | .long i => some (.fin i 0)
  | _ => none

/-- The value of the first field named `k`. -/
def getField (k : String) : List (String × Bson) → Option Bson
  | [] => none
  | (k2, v) :: rest => if k2 = k then some v else getField k rest

/-- Replaces the value of the first field named `k`, or adds the field at the end. -/
def setField (k : String) (v : Bson) : List (String × Bson) → List (String × Bson)
  | [] => [(k, v)]
  | (k2, v2) :: rest => if k2 = k then (k, v) :: rest else (k2, v2) :: setField k v rest

/-- Removes every field named `k`. -/
def removeField (k : String) : List (String × Bson) → List (String × Bson)
  | [] => []
  | (k2, v2) :: rest => if k2 = k then removeField k rest else (k2, v2) :: removeField k rest

mutual
/-- Equality of two values as `enum` and the `_id` index test it: numbers by value across
the numeric types, everything else by type and content. -/
def Bson.eqv : Bson → Bson → Bool
  | .string a, .string b => decide (a = b)
  | .object a, .object b => Bson.eqvFields a b
  | .array a, .array b => Bson.eqvElems a b
  | .objectId a, .objectId b => decide (a = b)
  | .bool a, .bool b => decide (a = b)
  | .date a, .date b => decide (a = b)
  | .null, .null => true
  | .double a, w => match w.num with
    | some b => a.eqv b
    | none => false
  | .decimal a, w => match w.num with
    | some b => a.eqv b
    | none => false
  | .int a, w => match w.num with
    | some b => (Num.fin a 0).eqv b
    | none => false
  | .long a, w => match w.num with
    | some b => (Num.fin a 0).eqv b
    | none => false
  | _, _ => false
termination_by structural v => v
/-- Field-by-field equality of two objects, in order. -/
def Bson.eqvFields : List (String × Bson) → List (String × Bson) → Bool
  | [], [] => true
  | (k, v) :: rest, (k2, v2) :: rest2 => decide (k = k2) && Bson.eqv v v2 && Bson.eqvFields rest rest2
  | _, _ => false
termination_by structural fs => fs
/-- Element-by-element equality of two arrays. -/
def Bson.eqvElems : List Bson → List Bson → Bool
  | [], [] => true
  | v :: rest, v2 :: rest2 => Bson.eqv v v2 && Bson.eqvElems rest rest2
  | _, _ => false
termination_by structural xs => xs
end

/-! ## The `$jsonSchema` keywords used by the script -/

/-- A schema: one slot per keyword that occurs in the script. -/
inductive Schema where
  | mk (bsonType : Option BsonType) (required : List String)
      (properties : List (String × Schema)) (minItems : Option Nat)
      (items : Option Schema) (enum : Option (List Bson)) (minimum : Option Int)
      (description : Option String)

/-- One step of the path from the document to the value a keyword failed on. -/
inductive PathSeg where
  | field (name : String)
  | index (i : Nat)
deriving DecidableEq

/-- The keyword that was not satisfied. -/
inductive Rule where
  | bsonType (expected : BsonType)
  | required (missing : List String)
  | minItems (n : Nat)
  | enum
  | minimum (n : Int)
deriving DecidableEq

/-- One unsatisfied keyword and where it failed. -/
structure Violation where
  path : List PathSeg
  rule : Rule
deriving DecidableEq

/-- Moves a violation found inside a field or element under that field or element. -/
def Violation.under (seg : PathSeg) (v : Violation) : Violation :=
  { path := seg :: v.path, rule := v.rule }

/-- Keyword `bsonType`: the value has the named type. -/
def checkType (ty : Option BsonType) (v : Bson) : List Violation :=
  match ty with
  | none => []
  | some t => if v.typeOf = t then [] else [⟨[], .bsonType t⟩]

/-- Keyword `required`: an object has every listed field; other values pass. -/
def checkRequired (req : List String) (v : Bson) : List Violation :=
  match v with
  | .object fs =>
    match req.filter (fun k => (getField k fs).isNone) with
    | [] => []
    | missing => [⟨[], .required missing⟩]
  | _ => []

/-- Keyword `minItems`: an array has at least `n` elements; other values pass. -/
def checkMinItems (n : Option Nat) (v : Bson) : List Violation :=
  match n, v with
  | some k, .array xs => if k ≤ xs.length then [] else [⟨[], .minItems k⟩]
  | _, _ => []

/-- Keyword `enum`: the value equals one of the listed values. -/
def checkEnum (en : Option (List Bson)) (v : Bson) : List Violation :=
  match en with
  | none => []
  | some allowed => if allowed.any (fun a => Bson.eqv v a) then [] else [⟨[], .enum⟩]

/-- Keyword `minimum`: a number is at least `n`; values of other types pass. -/
def checkMinimum (mn : Option Int) (v : Bson) : List Violation :=
  match mn, v.num with
  | some n, some d => if d.geInt n then [] else [⟨[], .minimum n⟩]
  | _, _ => []

/-- Keyword `items` with a single sub-schema `f`: the report of the first element that does
not match, under its index. -/
def checkElems (f : Bson → List Violation) : List Bson → Nat → List Violation
  | [], _ => []
  | x :: xs, i =>
    match f x with
    | [] => checkElems f xs (i + 1)
    | vs => vs.map (Violation.under (.index i))

mutual
/-- Every keyword of schema `s` that value `v` does not satisfy. -/
def violations : Schema → Bson → List Violation
  | .mk ty req props minI items en mn _, v =>
    checkType ty v ++ checkRequired req v ++
    (match v with
      | .object fs => violationsProps props fs
      | _ => []) ++
    checkMinItems minI v ++
    (match items, v with
      | some sub, .array xs => checkElems (fun x => violations sub x) xs 0
      | _, _ => []) ++
    checkEnum en v ++ checkMinimum mn v
termination_by structural s => s
/-- Keyword `properties`: each listed field that is present satisfies its schema. -/
def violationsProps : List (String × Schema) → List (String × Bson) → List Violation
  | [], _ => []
  | (k, s) :: rest, fs =>
    (match getField k fs with
      | none => []
      | some v => (violations s v).map (Violation.under (.field k))) ++
    violationsProps rest fs
termination_by structural ps => ps
end

/-! ## The validator of the `orders` collection (script lines 24-83) -/

/-- Schema of one element of `items` (script lines 38-61). -/
def itemSchema : Schema :=
  .mk (some .object) ["productId", "productName", "quantity", "unitPrice"]
    [ ("productId", .mk (some .string) [] [] none none none none (some "ID du produit - requis")),
      ("productName", .mk (some .string) [] [] none none none none (some "Nom du produit - requis")),
      ("quantity", .mk (some .int) [] [] none none none (some 1) (some "Quantité - requis et > 0")),
      ("unitPrice", .mk (some .double) [] [] none none none (some 0)
        (some "Prix unitaire - requis et >= 0")) ]
    none none none none none

/-- The six values of `status` (script line 64). -/
def statusEnum : List Bson :=
  [.string "PENDING", .string "CONFIRMED", .string "PROCESSING", .string "SHIPPED",
   .string "DELIVERED", .string "CANCELLED"]

/-- The `$jsonSchema` passed to `db.createCollection` for `orders`. -/
def ordersValidator : Schema :=
  .mk (some .object) ["userId", "items", "status", "totalAmount", "createdAt"]
    [ ("userId", .mk (some .string) [] [] none none none none
        (some "ID de l'utilisateur - requis")),
      ("items", .mk (some .array) [] [] (some 1) (some itemSchema) none none
        (some "Liste des articles - requis et non vide")),
      ("status", .mk none [] [] none none (some statusEnum) none
        (some "Statut de la commande - requis")),
      ("totalAmount", .mk (some .double) [] [] none none none (some 0)
        (some "Montant total - requis et >= 0")),
      ("createdAt", .mk (some .date) [] [] none none none none (some "Date de création - requis")),
      ("updatedAt", .mk (some .date) [] [] none none none none (some "Date de mise à jour")) ]
    none none none none none

/-- Outcome of validating a write. -/
inductive ValidationResult where
  | ok
  | schemaViolation (details : List Violation)
deriving DecidableEq

/-- Validation of a candidate document against a schema. -/
def validateWith (s : Schema) (doc : Bson) : ValidationResult :=
  match violations s doc with
  | [] => .ok
  | vs => .schemaViolation vs

/-- Validation of a candidate `orders` document. -/
def validate (doc : Bson) : ValidationResult :=
  validateWith ordersValidator doc

/-- The report names a failure at `path`. -/
def ValidationResult.mentions (r : ValidationResult) (path : List PathSeg) : Bool :=
  match r with
  | .ok => false
  | .schemaViolation vs => vs.any (fun v => decide (v.path = path))

/-- The reading of "the value is less than `n`" used for item quantities and prices: a number
that is not at least `n` in the server's order; a value of a non-numeric type is not less
than anything. -/
def Bson.ltInt (v : Bson) (n : Int) : Bool :=
  match v.num with
  | some d => !d.geInt n
  | none => false

/-! ## Indexes (script lines 87-93) -/

/-- An index of a collection: its name, its key pattern, and whether it is unique. -/
structure Index where
  name : String
  key : List (String × Int)
  unique : Bool
deriving DecidableEq

/-- What a shell command can fail with. -/
inductive ShellError where
  | userAlreadyExists (user : String)
  | namespaceExists (coll : String)
  | indexConflict (name : String)
  | documentFailedValidation (position : Nat) (details : List Violation)
  | duplicateKey (position : Nat)
deriving DecidableEq

/-- The name the server gives an index created without one: fields and directions joined
by underscores. -/
def indexName (key : List (String × Int)) : String :=
  String.intercalate "_" (key.map (fun fd => fd.1 ++ "_" ++ toString fd.2))

/-- The index every collection is created with. -/
def idIndex : Index := { name := "_id_", key := [("_id", 1)], unique := false }

/-- Command `createIndex(key)` with no options, on the index list of one collection: nothing
to do when the very same index exists, an error when an existing index has the same name or
the same key pattern but differs otherwise, a new index in every other case. -/
def createIndex (idx : List Index) (key : List (String × Int)) : List Index × Option ShellError :=
  let wanted : Index := { name := indexName key, key := key, unique := false }
  if wanted ∈ idx then (idx, none)
  else if idx.any (fun i => decide (i.name = wanted.name) || decide (i.key = wanted.key)) then
    (idx, some (.indexConflict wanted.name))
  else (idx ++ [wanted], none)

/-- The key patterns of the six `createIndex` calls, in script order. -/
def orderIndexKeys : List (List (String × Int)) :=
  [ [("userId", 1)],
    [("status", 1)],
    [("createdAt", -1)],
    [("userId", 1), ("status", 1)],
    [("items.productId", 1)],
    [("totalAmount", 1)] ]

/-- A sequence of `createIndex` calls; the first error ends the sequence. -/
def createIndexes : List (List (String × Int)) → List Index → List Index × Option ShellError
  | [], idx => (idx, none)
  | k :: ks, idx =>
    match createIndex idx k with
    | (idx2, none) => createIndexes ks idx2
    | (idx2, some e) => (idx2, some e)

/-- The index-creation step of the script on the index list of `orders`. -/
def ensureIndexes (idx : List Index) : List Index × Option ShellError :=
  createIndexes orderIndexKeys idx

/-! ## Database state and the shell commands of the script -/

/-- A database user. -/
structure User where
  user : String
  pwd : String
  roles : List (String × String)
deriving DecidableEq

/-- A collection: validator, indexes and stored documents. -/
structure Collection where
  name : String
  validator : Option Schema
  indexes : List Index
  docs : List Bson

/-- The part of the server the script touches: database `orderservice_db`, with the counter
the shell draws fresh `_id` values from. -/
structure Db where
  users : List User
  collections : List Collection
  nextId : Nat

/-- A freshly provisioned server. -/
def emptyDb : Db := { users := [], collections := [], nextId := 0 }

/-- The collection named `n`, if it exists. -/
def findCollection (n : String) : List Collection → Option Collection
  | [] => none
  | c :: cs => if c.name = n then some c else findCollection n cs

/-- Stores `c` in place of the collection of the same name, or adds it. -/
def putCollection (c : Collection) : List Collection → List Collection
  | [] => [c]
  | d :: cs => if d.name = c.name then c :: cs else d :: putCollection c cs

/-- The collection named `n`, created without validator on first use. -/
def collectionOrNew (n : String) (db : Db) : Collection :=
  match findCollection n db.collections with
  | some c => c
  | none => { name := n, validator := none, indexes := [idIndex], docs := [] }

/-- Command `db.createUser`: fails when the user exists. -/
def createUser (u : User) (db : Db) : Db × Option ShellError :=
  if db.users.any (fun w => decide (w.user = u.user)) then (db, some (.userAlreadyExists u.user))
  else ({ db with users := db.users ++ [u] }, none)

/-- Command `db.createCollection(name, validator)`: fails when the collection exists. -/
def createCollection (n : String) (validator : Schema) (db : Db) : Db × Option ShellError :=
  match findCollection n db.collections with
  | some _ => (db, some (.namespaceExists n))
  | none =>
    ({ db with collections := db.collections ++
        [{ name := n, validator := some validator, indexes := [idIndex], docs := [] }] }, none)

/-- Command `db.<coll>.createIndex(key)`. -/
def createIndexIn (n : String) (key : List (String × Int)) (db : Db) : Db × Option ShellError :=
  let c := collectionOrNew n db
  let r := createIndex c.indexes key
  ({ db with collections := putCollection { c with indexes := r.1 } db.collections }, r.2)

/-- The number of documents of collection `n`. -/
def countDocuments (n : String) (db : Db) : Nat :=
  match findCollection n db.collections with
  | some c => c.docs.length
  | none => 0

/-- The `_id` of a stored document. -/
def docId : Bson → Option Bson
  | .object fs => getField "_id" fs
  | _ => none

/-- One insert: the shell adds a fresh `_id` when there is none, the server checks the
validator of the collection and the `_id` index, and stores the document. -/
def insertOne (position : Nat) (fields : List (String × Bson)) (c : Collection) (nextId : Nat) :
    Collection × Nat × Option ShellError :=
  let withId : List (String × Bson) × Nat :=
    match getField "_id" fields with
    | some _ => (fields, nextId)
    | none => (("_id", .objectId nextId) :: fields, nextId + 1)
  let doc := Bson.object withId.1
  let found : List Violation :=
    match c.validator with
    | some s => violations s doc
    | none => []
  match found with
  | [] =>
    if c.docs.any (fun d => match docId d, docId doc with
        | some a, some b => Bson.eqv a b
        | _, _ => false)
    then (c, withId.2, some (.duplicateKey position))
    else ({ c with docs := c.docs ++ [doc] }, withId.2, none)
  | vs => (c, withId.2, some (.documentFailedValidation position vs))

/-- An ordered bulk insert: documents go in one by one, the first failure ends it. -/
def insertAll : List (List (String × Bson)) → Nat → Collection → Nat →
    Collection × Nat × Option ShellError
  | [], _, c, nextId => (c, nextId, none)
  | d :: ds, position, c, nextId =>
    match insertOne position d c nextId with
    | (c2, n2, none) => insertAll ds (position + 1) c2 n2
    | (c2, n2, some e) => (c2, n2, some e)

/-- Command `db.<coll>.insertMany(docs)`. -/
def insertMany (n : String) (docs : List (List (String × Bson))) (db : Db) :
    Db × Option ShellError :=
  let r := insertAll docs 0 (collectionOrNew n db) db.nextId
  ({ db with collections := putCollection r.1 db.collections, nextId := r.2.1 }, r.2.2)

/-- Runs shell commands in sequence; an error ends the script and keeps what was done. -/
def runScript : List (Db → Db × Option ShellError) → Db → Db × Option ShellError
  | [], db => (db, none)
  | cmd :: cmds, db =>
    match cmd db with
    | (db2, none) => runScript cmds db2
    | (db2, some e) => (db2, some e)

/-! ## The literals of the script -/

/-- A number literal `mant / 10 ^ scale` of the script as the shell sends it: an integral
value within the 32-bit range as `int`, any other as `double`. -/
def jsNumber (mant : Int) (scale : Nat) : Bson :=
  if mant % 10 ^ scale = 0 ∧ -2147483648 ≤ mant / 10 ^ scale ∧ mant / 10 ^ scale ≤ 2147483647
  then .int (mant / 10 ^ scale)
  else .double (.fin mant scale)

/-- The user of script lines 10-19. -/
def orderServiceUser : User :=
  { user := "orderservice_user", pwd := "orderservice_password",
    roles := [("readWrite", "orderservice_db")] }

/-- First sample order (script lines 99-124). -/
def sampleOrder1 : List (String × Bson) :=
  [ ("userId", .string "507f1f77bcf86cd799439011"),
    ("items", .array [
      .object [
        ("productId", .string "507f1f77bcf86cd799439021"),
        ("productName", .string "Laptop Dell XPS 13"),
        ("quantity", jsNumber 1 0),
        ("unitPrice", jsNumber 129999 2),
        ("description", .string "Ordinateur portable haute performance"),
        ("category", .string "Informatique") ] ]),
    ("status", .string "DELIVERED"),
    ("totalAmount", jsNumber 129999 2),
    ("taxAmount", jsNumber 25999 2),
    ("shippingAmount", jsNumber 0 1),
    ("shippingAddress", .object [
      ("street", .string "123 Rue de la Paix"),
      ("city", .string "Paris"),
      ("postalCode", .string "75001"),
      ("country", .string "France") ]),
    ("notes", .string "Livraison rapide demandée"),
    ("createdAt", .date 1705314600000),
    ("updatedAt", .date 1705587600000) ]

/-- Second sample order (script lines 125-158). -/
def sampleOrder2 : List (String × Bson) :=
  [ ("userId", .string "507f1f77bcf86cd799439012"),
    ("items", .array [
      .object [
        ("productId", .string "507f1f77bcf86cd799439022"),
        ("productName", .string "iPhone 15 Pro"),
        ("quantity", jsNumber 1 0),
        ("unitPrice", jsNumber 119999 2),
        ("description", .string "Smartphone dernière génération"),
        ("category", .string "Téléphonie") ],
      .object [
        ("productId", .string "507f1f77bcf86cd799439023"),
        ("productName", .string "Coque iPhone 15 Pro"),
        ("quantity", jsNumber 1 0),
        ("unitPrice", jsNumber 2999 2),
        ("description", .string "Protection en silicone"),
        ("category", .string "Accessoires") ] ]),
    ("status", .string "PROCESSING"),
    ("totalAmount", jsNumber 122998 2),
    ("taxAmount", jsNumber 24599 2),
    ("shippingAmount", jsNumber 999 2),
    ("shippingAddress", .object [
      ("street", .string "456 Avenue des Champs"),
      ("city", .string "Lyon"),
      ("postalCode", .string "69001"),
      ("country", .string "France") ]),
    ("notes", .string "Commande groupée"),
    ("createdAt", .date 1705742100000),
    ("updatedAt", .date 1705769100000) ]

/-- Third sample order (script lines 159-184). -/
def sampleOrder3 : List (String × Bson) :=
  [ ("userId", .string "507f1f77bcf86cd799439013"),
    ("items", .array [
      .object [
        ("productId", .string "507f1f77bcf86cd799439024"),
        ("productName", .string "Casque Sony WH-1000XM5"),
        ("quantity", jsNumber 2 0),
        ("unitPrice", jsNumber 39999 2),
        ("description", .string "Casque à réduction de bruit"),
        ("category", .string "Audio") ] ]),
    ("status", .string "PENDING"),
    ("totalAmount", jsNumber 79998 2),
    ("taxAmount", jsNumber 15999 2),
    ("shippingAmount", jsNumber 599 2),
    ("shippingAddress", .object [
      ("street", .string "789 Boulevard Saint-Germain"),
      ("city", .string "Marseille"),
      ("postalCode", .string "13001"),
      ("country", .string "France") ]),
    ("notes", .string "Cadeau - emballage spécial"),
    ("createdAt", .date 1705933800000),
    ("updatedAt", .date 1705933800000) ]

/-- The argument of `insertMany` (script lines 98-185). -/
def sampleOrders : List (List (String × Bson)) :=
  [sampleOrder1, sampleOrder2, sampleOrder3]

/-- The script: user, collection with validator, six indexes, sample data. -/
def initMongo (db : Db) : Db × Option ShellError :=
  runScript
    ([ createUser orderServiceUser,
       createCollection "orders" ordersValidator ] ++
     orderIndexKeys.map (createIndexIn "orders") ++
     [ insertMany "orders" sampleOrders ]) db

/-! ## Documents used in the statements below -/

/-- The end-to-end example of the specification: one item, no optional field. -/
def exampleOrder (quantity : Int) (createdAt : Int) : List (String × Bson) :=
  [ ("userId", .string "u1"),
    ("items", .array [
      .object [
        ("productId", .string "p1"),
        ("productName", .string "Widget"),
        ("quantity", .int quantity),
        ("unitPrice", .double (.fin 999 2)) ] ]),
    ("status", .string "PENDING"),
    ("totalAmount", .double (.fin 1998 2)),
    ("createdAt", .date createdAt) ]

/-- The example order with tax and shipping amounts below zero. -/
def negativeTaxOrder : List (String × Bson) :=
  exampleOrder 2 0 ++
    [ ("taxAmount", .double (.fin (-500) 2)), ("shippingAmount", .double (.fin (-1) 0)) ]

/-- The example order with the empty string as `userId`. -/
def emptyUserIdOrder : List (String × Bson) :=
  setField "userId" (.string "") (exampleOrder 2 0)

/-- The example order with a second item whose quantity is zero. -/
def zeroQuantityOrder : List (String × Bson) :=
  setField "items" (.array [
      .object [
        ("productId", .string "p1"),
        ("productName", .string "Widget"),
        ("quantity", .int 2),
        ("unitPrice", .double (.fin 999 2)) ],
      .object [
        ("productId", .string "p2"),
        ("productName", .string "Gadget"),
        ("quantity", .int 0),
        ("unitPrice", .double (.fin 100 2)) ] ]) (exampleOrder 2 0)

/-- The index list of `orders` once the script has created the collection and its indexes. -/
def ordersIndexes : List Index :=
  [ idIndex,
    { name := "userId_1", key := [("userId", 1)], unique := false },
    { name := "status_1", key := [("status", 1)], unique := false },
    { name := "createdAt_-1", key := [("createdAt", -1)], unique := false },
    { name := "userId_1_status_1", key := [("userId", 1), ("status", 1)], unique := false },
    { name := "items.productId_1", key := [("items.productId", 1)], unique := false },
    { name := "totalAmount_1", key := [("totalAmount", 1)], unique := false } ]

/-! ## Keyword lemmas -/

theorem checkElems_nil_iff (f : Bson → List Violation) (xs : List Bson) (i : Nat) :
    checkElems f xs i = [] ↔ ∀ x ∈ xs, f x = [] := by
  induction xs generalizing i with
  | nil => simp [checkElems]
  | cons x xs ih =>
    unfold checkElems
    split
    · next h => simp [h, ih]
    · next h =>
      simp only [List.map_eq_nil_iff, List.mem_cons, forall_eq_or_imp]
      exact ⟨fun h2 => absurd h2 (h), fun h2 => h2.1⟩

theorem checkRequired_nil_iff (req : List String) (fs : List (String × Bson)) :
    checkRequired req (.object fs) = [] ↔ ∀ k ∈ req, ∃ v, getField k fs = some v := by
  simp only [checkRequired]
  constructor
  · intro h k hk
    split at h
    · next hf =>
      have := List.filter_eq_nil_iff.mp hf k hk
      cases hg : getField k fs with
      | none => simp [hg] at this
      | some v => exact ⟨v, rfl⟩
    · simp at h
  · intro h
    have : req.filter (fun k => (getField k fs).isNone) = [] := by
      apply List.filter_eq_nil_iff.mpr
      intro k hk
      obtain ⟨v, hv⟩ := h k hk
      simp [hv]
    simp [this]

theorem typeOf_string_iff (v : Bson) : v.typeOf = .string ↔ ∃ s, v = .string s := by
  cases v <;> simp [Bson.typeOf]
theorem typeOf_date_iff (v : Bson) : v.typeOf = .date ↔ ∃ s, v = .date s := by
  cases v <;> simp [Bson.typeOf]
theorem typeOf_int_iff (v : Bson) : v.typeOf = .int ↔ ∃ s, v = .int s := by
  cases v <;> simp [Bson.typeOf]
theorem typeOf_double_iff (v : Bson) : v.typeOf = .double ↔ ∃ s, v = .double s := by
  cases v <;> simp [Bson.typeOf]
theorem typeOf_array_iff (v : Bson) : v.typeOf = .array ↔ ∃ s, v = .array s := by
  cases v <;> simp [Bson.typeOf]
theorem typeOf_object_iff (v : Bson) : v.typeOf = .object ↔ ∃ s, v = .object s := by
  cases v <;> simp [Bson.typeOf]

theorem violations_typeOnly (t : BsonType) (d : Option String) (v : Bson) :
    violations (.mk (some t) [] [] none none none none d) v = [] ↔ v.typeOf = t := by
  cases v <;> simp [violations, violationsProps, checkType, checkRequired, checkMinItems, checkEnum, checkMinimum]

theorem violations_typeMin (t : BsonType) (n : Int) (d : Option String) (v : Bson) :
    violations (.mk (some t) [] [] none none none (some n) d) v = [] ↔
      v.typeOf = t ∧ ∀ x, v.num = some x → x.geInt n = true := by
  cases v <;> simp [violations, violationsProps, checkType, checkRequired, checkMinItems, checkEnum, checkMinimum, Bson.num, Bson.typeOf]

theorem eqv_string_iff (v : Bson) (s : String) : Bson.eqv v (.string s) = true ↔ v = .string s := by
  cases v <;> simp [Bson.eqv, Bson.num]

theorem violations_status (d : Option String) (v : Bson) :
    violations (.mk none [] [] none none (some statusEnum) none d) v = [] ↔ v ∈ statusEnum := by
  have h : statusEnum.any (fun a => Bson.eqv v a) = true ↔ v ∈ statusEnum := by
    simp [statusEnum, eqv_string_iff]
  cases v <;> simp only [violations, violationsProps, checkType, checkRequired, checkMinItems, checkEnum, checkMinimum, Bson.num, List.append_nil, List.nil_append] <;> rw [← h] <;> split <;> simp_all

/-! ## What the validator accepts -/

theorem violationsProps_cons_nil_iff (k : String) (s : Schema) (rest : List (String × Schema))
    (fs : List (String × Bson)) :
    violationsProps ((k, s) :: rest) fs = [] ↔
      (∀ v, getField k fs = some v → violations s v = []) ∧ violationsProps rest fs = [] := by
  simp only [violationsProps, List.append_eq_nil]
  cases h : getField k fs <;> simp

theorem violations_objectSchema (req : List String) (props : List (String × Schema))
    (d : Option String) (v : Bson) :
    violations (.mk (some .object) req props none none none none d) v = [] ↔
      ∃ fs, v = .object fs ∧ (∀ k ∈ req, ∃ w, getField k fs = some w) ∧
        violationsProps props fs = [] := by
  cases v with
  | object fs =>
    simp only [violations, List.append_eq_nil, checkRequired_nil_iff, checkMinItems, checkEnum,
      checkMinimum, Bson.num, checkType, Bson.typeOf]
    simp
  | _ => simp [violations, checkType, Bson.typeOf]

theorem violations_itemSchema_iff (x : Bson) :
    violations itemSchema x = [] ↔
      ∃ fs, x = .object fs ∧
        (∃ s, getField "productId" fs = some (.string s)) ∧
        (∃ s, getField "productName" fs = some (.string s)) ∧
        (∃ q, getField "quantity" fs = some (.int q) ∧ 1 ≤ q) ∧
        (∃ d, getField "unitPrice" fs = some (.double d) ∧ d.geInt 0 = true) := by
  unfold itemSchema
  rw [violations_objectSchema]
  constructor
  · rintro ⟨fs, rfl, hreq, hp⟩
    refine ⟨fs, rfl, ?_⟩
    simp only [violationsProps_cons_nil_iff, violations_typeOnly, violations_typeMin,
      typeOf_string_iff, typeOf_int_iff, typeOf_double_iff] at hp
    obtain ⟨h1, h2, h3, h4, -⟩ := hp
    obtain ⟨w1, e1⟩ := hreq "productId" (by simp)
    obtain ⟨w2, e2⟩ := hreq "productName" (by simp)
    obtain ⟨w3, e3⟩ := hreq "quantity" (by simp)
    obtain ⟨w4, e4⟩ := hreq "unitPrice" (by simp)
    obtain ⟨s1, rfl⟩ := h1 w1 e1
    obtain ⟨s2, rfl⟩ := h2 w2 e2
    obtain ⟨⟨q, rfl⟩, hq⟩ := h3 w3 e3
    obtain ⟨⟨d, rfl⟩, hd⟩ := h4 w4 e4
    refine ⟨⟨s1, e1⟩, ⟨s2, e2⟩, ⟨q, e3, ?_⟩, ⟨d, e4, hd d rfl⟩⟩
    have := hq (.fin q 0) rfl
    simpa [Num.geInt] using this
  · rintro ⟨fs, rfl, ⟨s1, e1⟩, ⟨s2, e2⟩, ⟨q, e3, hq⟩, ⟨d, e4, hd⟩⟩
    refine ⟨fs, rfl, ?_, ?_⟩
    · intro k hk
      simp only [List.mem_cons, List.mem_singleton, List.not_mem_nil, or_false] at hk
      rcases hk with rfl | rfl | rfl | rfl
      · exact ⟨_, e1⟩
      · exact ⟨_, e2⟩
      · exact ⟨_, e3⟩
      · exact ⟨_, e4⟩
    · simp only [violationsProps_cons_nil_iff, violations_typeOnly, violations_typeMin]
      refine ⟨?_, ?_, ?_, ?_, ?_⟩
      · intro v hv; rw [e1] at hv; cases hv; rfl
      · intro v hv; rw [e2] at hv; cases hv; rfl
      · intro v hv; rw [e3] at hv; cases hv
        refine ⟨rfl, ?_⟩
        intro x hx; cases hx
        simpa [Num.geInt] using hq
      · intro v hv; rw [e4] at hv; cases hv
        refine ⟨rfl, ?_⟩
        intro x hx; cases hx
        exact hd
      · simp [violationsProps]

theorem violations_itemsSchema_iff (d : Option String) (v : Bson) :
    violations (.mk (some .array) [] [] (some 1) (some itemSchema) none none d) v = [] ↔
      ∃ xs, v = .array xs ∧ xs ≠ [] ∧ ∀ x ∈ xs, violations itemSchema x = [] := by
  cases v with
  | array xs =>
    simp only [violations, List.append_eq_nil, checkMinItems, checkEnum,
      checkMinimum, Bson.num, checkType, Bson.typeOf, checkElems_nil_iff, checkRequired]
    cases xs <;> simp
  | _ => simp [violations, checkType, Bson.typeOf]

theorem violations_ordersValidator_iff (doc : Bson) :
    violations ordersValidator doc = [] ↔
      ∃ fs, doc = .object fs ∧
        (∃ s, getField "userId" fs = some (.string s)) ∧
        (∃ xs, getField "items" fs = some (.array xs) ∧ xs ≠ [] ∧
          ∀ x ∈ xs, violations itemSchema x = []) ∧
        (∃ v, getField "status" fs = some v ∧ v ∈ statusEnum) ∧
        (∃ d, getField "totalAmount" fs = some (.double d) ∧ d.geInt 0 = true) ∧
        (∃ ms, getField "createdAt" fs = some (.date ms)) ∧
        (∀ v, getField "updatedAt" fs = some v → ∃ ms, v = .date ms) := by
  unfold ordersValidator
  rw [violations_objectSchema]
  constructor
  · rintro ⟨fs, rfl, hreq, hp⟩
    refine ⟨fs, rfl, ?_⟩
    simp only [violationsProps_cons_nil_iff, violations_typeOnly, violations_typeMin,
      violations_itemsSchema_iff, violations_status,
      typeOf_string_iff, typeOf_date_iff, typeOf_double_iff] at hp
    obtain ⟨h1, h2, h3, h4, h5, h6, -⟩ := hp
    obtain ⟨w1, e1⟩ := hreq "userId" (by simp)
    obtain ⟨w2, e2⟩ := hreq "items" (by simp)
    obtain ⟨w3, e3⟩ := hreq "status" (by simp)
    obtain ⟨w4, e4⟩ := hreq "totalAmount" (by simp)
    obtain ⟨w5, e5⟩ := hreq "createdAt" (by simp)
    obtain ⟨s1, rfl⟩ := h1 w1 e1
    obtain ⟨xs, rfl, hxs⟩ := h2 w2 e2
    obtain ⟨⟨d, rfl⟩, hd⟩ := h4 w4 e4
    obtain ⟨ms, rfl⟩ := h5 w5 e5
    exact ⟨⟨s1, e1⟩, ⟨xs, e2, hxs⟩, ⟨w3, e3, h3 w3 e3⟩, ⟨d, e4, hd d rfl⟩, ⟨ms, e5⟩, h6⟩
  · rintro ⟨fs, rfl, ⟨s1, e1⟩, ⟨xs, e2, hxs⟩, ⟨w3, e3, h3⟩, ⟨d, e4, hd⟩, ⟨ms, e5⟩, h6⟩
    refine ⟨fs, rfl, ?_, ?_⟩
    · intro k hk
      simp only [List.mem_cons, List.mem_singleton, List.not_mem_nil, or_false] at hk
      rcases hk with rfl | rfl | rfl | rfl | rfl
      · exact ⟨_, e1⟩
      · exact ⟨_, e2⟩
      · exact ⟨_, e3⟩
      · exact ⟨_, e4⟩
      · exact ⟨_, e5⟩
    · simp only [violationsProps_cons_nil_iff, violations_typeOnly, violations_typeMin,
        violations_itemsSchema_iff, violations_status]
      refine ⟨?_, ?_, ?_, ?_, ?_, ?_, ?_⟩
      · intro v hv; rw [e1] at hv; cases hv; rfl
      · intro v hv; rw [e2] at hv; cases hv
        exact ⟨xs, rfl, hxs⟩
      · intro v hv; rw [e3] at hv; cases hv
        exact h3
      · intro v hv; rw [e4] at hv; cases hv
        refine ⟨rfl, ?_⟩
        intro x hx; cases hx
        exact hd
      · intro v hv; rw [e5] at hv; cases hv; rfl
      · intro v hv
        exact (typeOf_date_iff v).mpr (h6 v hv)
      · simp [violationsProps]

/-! ## Acceptance in terms of the violation list -/

theorem validate_ok_iff (doc : Bson) : validate doc = .ok ↔ violations ordersValidator doc = [] := by
  unfold validate validateWith
  split
  · next h => simp [h]
  · next h => simpa using h

theorem validate_of_mem {doc : Bson} {x : Violation} (h : x ∈ violations ordersValidator doc) :
    validate doc = .schemaViolation (violations ordersValidator doc) := by
  unfold validate validateWith
  split
  · next h2 => rw [h2] at h; cases h
  · rfl

theorem getField_setField (k k2 : String) (v : Bson) (fs : List (String × Bson)) :
    getField k (setField k2 v fs) = if k2 = k then some v else getField k fs := by
  induction fs with
  | nil => simp [setField, getField]
  | cons kv rest ih =>
    obtain ⟨a, b⟩ := kv
    by_cases h1 : a = k2
    · subst h1
      by_cases h2 : a = k <;> simp [setField, getField, h2]
    · by_cases h2 : a = k
      · subst h2
        have : ¬ k2 = a := fun h => h1 h.symm
        simp [setField, getField, h1, this]
      · simp [setField, getField, h1, h2, ih]

theorem mem_violations_of_props {ty : Option BsonType} {req : List String}
    {props : List (String × Schema)} {minI : Option Nat} {items : Option Schema}
    {en : Option (List Bson)} {mn : Option Int} {d : Option String}
    {fs : List (String × Bson)} {x : Violation} (hx : x ∈ violationsProps props fs) :
    x ∈ violations (.mk ty req props minI items en mn d) (.object fs) := by
  simp only [violations, List.mem_append]
  exact Or.inl (Or.inl (Or.inl (Or.inl (Or.inr hx))))

theorem mem_checkRequired {req : List String} {fs : List (String × Bson)} {k : String}
    (hk : k ∈ req) (hmiss : getField k fs = none) :
    ∃ missing, k ∈ missing ∧ (⟨[], .required missing⟩ : Violation) ∈ checkRequired req (.object fs) := by
  have hmem : k ∈ req.filter (fun k => (getField k fs).isNone) := by
    simp [List.mem_filter, hk, hmiss]
  refine ⟨req.filter (fun k => (getField k fs).isNone), hmem, ?_⟩
  simp only [checkRequired]
  split
  · next h => rw [h] at hmem; cases hmem
  · simp

/-! ## The validator -/

/-- C1: a candidate document that lacks one of `userId`, `items`, `status`, `totalAmount`,
`createdAt` is rejected with a schema violation, whatever its other fields hold; the report
has a `required` entry that lists the missing field. -/
theorem missing_required_field_rejected (fs : List (String × Bson)) (k : String)
    (hk : k ∈ ["userId", "items", "status", "totalAmount", "createdAt"])
    (hmiss : getField k fs = none) :
    ∃ details missing, validate (.object fs) = .schemaViolation details ∧
      k ∈ missing ∧ (⟨[], .required missing⟩ : Violation) ∈ details := by
  obtain ⟨missing, hm, hin⟩ := mem_checkRequired hk hmiss
  have hv : (⟨[], .required missing⟩ : Violation) ∈ violations ordersValidator (.object fs) := by
    simp only [ordersValidator, violations, List.mem_append]
    exact Or.inl (Or.inl (Or.inl (Or.inl (Or.inl (Or.inr hin)))))
  exact ⟨_, missing, validate_of_mem hv, hm, hv⟩

theorem missing_required_field_rejected_witness :
    getField "createdAt" (removeField "createdAt" (exampleOrder 2 0)) = none ∧
    ∃ details missing,
      validate (.object (removeField "createdAt" (exampleOrder 2 0))) = .schemaViolation details ∧
      "createdAt" ∈ missing ∧ (⟨[], .required missing⟩ : Violation) ∈ details :=
  ⟨rfl, missing_required_field_rejected _ "createdAt" (by decide) rfl⟩

/-- C2: with every other field valid (the document is accepted once its status is set to
`PENDING`), the document with status `v` is accepted exactly when `v` is one of the six
strings of the enumeration. -/
theorem status_accepted_iff_in_enum (fs : List (String × Bson)) (v : Bson)
    (hother : validate (.object (setField "status" (.string "PENDING") fs)) = .ok) :
    validate (.object (setField "status" v fs)) = .ok ↔
      v ∈ [Bson.string "PENDING", .string "CONFIRMED", .string "PROCESSING", .string "SHIPPED",
        .string "DELIVERED", .string "CANCELLED"] := by
  rw [validate_ok_iff, violations_ordersValidator_iff] at hother ⊢
  obtain ⟨fs1, hfs1, h1, h2, -, h4, h5, h6⟩ := hother
  cases hfs1
  simp only [getField_setField] at h1 h2 h4 h5 h6
  simp only [String.reduceEq, if_false] at h1 h2 h4 h5 h6
  constructor
  · rintro ⟨fs2, hfs2, -, -, ⟨w, hw, hmem⟩, -⟩
    cases hfs2
    simp only [getField_setField, if_true, Option.some.injEq] at hw
    subst hw
    exact hmem
  · intro hv
    refine ⟨_, rfl, ?_, ?_, ⟨v, ?_, hv⟩, ?_, ?_, ?_⟩ <;>
      simp only [getField_setField, String.reduceEq, if_false, if_true]
    · exact h1
    · exact h2
    · exact h4
    · exact h5
    · exact h6

theorem status_accepted_iff_in_enum_witness :
    validate (.object (setField "status" (.string "PENDING") (exampleOrder 2 0))) = .ok ∧
    (validate (.object (setField "status" (.string "pending") (exampleOrder 2 0))) = .ok ↔
      Bson.string "pending" ∈ [Bson.string "PENDING", .string "CONFIRMED", .string "PROCESSING",
        .string "SHIPPED", .string "DELIVERED", .string "CANCELLED"]) :=
  ⟨by decide, status_accepted_iff_in_enum (exampleOrder 2 0) (.string "pending") (by decide)⟩

/-- C3: a document whose `items` array holds, at any position, an item whose quantity is
less than 1 or whose unit price is less than 0 is rejected, whatever the other items and
fields are. -/
theorem bad_item_rejected (fs : List (String × Bson)) (xs : List Bson) (i : Nat)
    (item : List (String × Bson)) (q : Bson)
    (hitems : getField "items" fs = some (.array xs))
    (hitem : xs[i]? = some (.object item))
    (hbad : (getField "quantity" item = some q ∧ q.ltInt 1 = true) ∨
      (getField "unitPrice" item = some q ∧ q.ltInt 0 = true)) :
    ∃ details, validate (.object fs) = .schemaViolation details := by
  have hne : violations ordersValidator (.object fs) ≠ [] := by
    intro hnil
    obtain ⟨fs1, hfs1, -, ⟨ys, hys, -, hall⟩, -⟩ := (violations_ordersValidator_iff _).mp hnil
    cases hfs1
    rw [hitems] at hys
    cases hys
    have hmem : Bson.object item ∈ xs := List.getElem?_mem hitem
    obtain ⟨it, hit, -, -, ⟨n, hn, hle⟩, ⟨d, hd, hge⟩⟩ :=
      (violations_itemSchema_iff _).mp (hall _ hmem)
    cases hit
    rcases hbad with ⟨hq, hlt⟩ | ⟨hq, hlt⟩
    · rw [hn] at hq
      cases hq
      simp only [Bson.ltInt, Bson.num, Num.geInt, pow_zero, mul_one, Bool.not_eq_true',
        decide_eq_false_iff_not] at hlt
      exact hlt hle
    · rw [hd] at hq
      cases hq
      simp only [Bson.ltInt, Bson.num, hge, Bool.not_true] at hlt
      cases hlt
  cases hv : violations ordersValidator (.object fs) with
  | nil => exact absurd hv hne
  | cons x rest =>
    exact ⟨x :: rest, by rw [← hv]; exact validate_of_mem (hv ▸ List.mem_cons_self x rest)⟩

theorem bad_item_rejected_witness :
    (getField "items" zeroQuantityOrder = some (.array [
      .object [("productId", .string "p1"), ("productName", .string "Widget"),
        ("quantity", .int 2), ("unitPrice", .double (.fin 999 2))],
      .object [("productId", .string "p2"), ("productName", .string "Gadget"),
        ("quantity", .int 0), ("unitPrice", .double (.fin 100 2))]])) ∧
    ∃ details, validate (.object zeroQuantityOrder) = .schemaViolation details :=
  ⟨rfl, bad_item_rejected zeroQuantityOrder _ 1 _ (.int 0) rfl rfl (Or.inl ⟨rfl, rfl⟩)⟩

/-- C4: a document whose `items` field is the empty array is rejected, and the report has an
entry for the field `items` (its `minItems` keyword). -/
theorem empty_items_rejected (fs : List (String × Bson))
    (hitems : getField "items" fs = some (.array [])) :
    ∃ details, validate (.object fs) = .schemaViolation details ∧
      (⟨[.field "items"], .minItems 1⟩ : Violation) ∈ details ∧
      (ValidationResult.schemaViolation details).mentions [.field "items"] = true := by
  have hv : (⟨[.field "items"], .minItems 1⟩ : Violation) ∈
      violations ordersValidator (.object fs) := by
    unfold ordersValidator
    apply mem_violations_of_props
    simp only [violationsProps, hitems, List.mem_append]
    right; left
    decide
  refine ⟨_, validate_of_mem hv, hv, ?_⟩
  simp only [ValidationResult.mentions, List.any_eq_true, decide_eq_true_eq]
  exact ⟨_, hv, rfl⟩

theorem empty_items_rejected_witness :
    getField "items" (setField "items" (.array []) (exampleOrder 2 0)) = some (.array []) ∧
    ∃ details,
      validate (.object (setField "items" (.array []) (exampleOrder 2 0))) =
        .schemaViolation details ∧
      (⟨[.field "items"], .minItems 1⟩ : Violation) ∈ details ∧
      (ValidationResult.schemaViolation details).mentions [.field "items"] = true :=
  ⟨rfl, empty_items_rejected _ rfl⟩

/-- C5: the example order (quantity 2, no optional field, any creation date) is accepted;
with quantity 0 it is rejected, and the report consists of one entry, for the field
`quantity` of the first item (its `minimum` keyword). -/
theorem example_order_accepted_and_zero_quantity_rejected (createdAt : Int) :
    validate (.object (exampleOrder 2 createdAt)) = .ok ∧
    validate (.object (exampleOrder 0 createdAt)) =
      .schemaViolation [⟨[.field "items", .index 0, .field "quantity"], .minimum 1⟩] ∧
    (validate (.object (exampleOrder 0 createdAt))).mentions
      [.field "items", .index 0, .field "quantity"] = true :=
  ⟨rfl, rfl, rfl⟩

/-- C6 (as stated, refuted): an order with `taxAmount` -5.00 and `shippingAmount` -1 is
accepted. -/
theorem negative_tax_and_shipping_accepted :
    validate (.object negativeTaxOrder) = .ok ∧
    getField "taxAmount" negativeTaxOrder = some (.double (.fin (-500) 2)) ∧
    (Bson.double (.fin (-500) 2)).ltInt 0 = true ∧
    getField "shippingAmount" negativeTaxOrder = some (.double (.fin (-1) 0)) ∧
    (Bson.double (.fin (-1) 0)).ltInt 0 = true :=
  ⟨rfl, rfl, rfl, rfl, rfl⟩

/-- C6 (amended): an accepted order has a `totalAmount` that is a double at least 0 and, for
every item, a `unitPrice` that is a double at least 0; `taxAmount` and `shippingAmount` are
not looked at: setting either to any value keeps an accepted order accepted. -/
theorem accepted_total_and_unit_prices_nonneg (fs : List (String × Bson))
    (hok : validate (.object fs) = .ok) :
    (∃ d, getField "totalAmount" fs = some (.double d) ∧ d.geInt 0 = true) ∧
    (∃ xs, getField "items" fs = some (.array xs) ∧
      ∀ x ∈ xs, ∃ item d, x = .object item ∧
        getField "unitPrice" item = some (.double d) ∧ d.geInt 0 = true) ∧
    (∀ v, validate (.object (setField "taxAmount" v fs)) = .ok) ∧
    (∀ v, validate (.object (setField "shippingAmount" v fs)) = .ok) := by
  rw [validate_ok_iff, violations_ordersValidator_iff] at hok
  obtain ⟨fs1, hfs1, h1, ⟨xs, hxs, hne, hall⟩, h3, h4, h5, h6⟩ := hok
  cases hfs1
  refine ⟨h4, ⟨xs, hxs, ?_⟩, ?_, ?_⟩
  · intro x hx
    obtain ⟨item, hit, -, -, -, ⟨d, hd, hge⟩⟩ := (violations_itemSchema_iff _).mp (hall x hx)
    exact ⟨item, d, hit, hd, hge⟩
  · intro v
    rw [validate_ok_iff, violations_ordersValidator_iff]
    refine ⟨_, rfl, ?_⟩
    simp only [getField_setField, String.reduceEq, if_false]
    exact ⟨h1, ⟨xs, hxs, hne, hall⟩, h3, h4, h5, h6⟩
  · intro v
    rw [validate_ok_iff, violations_ordersValidator_iff]
    refine ⟨_, rfl, ?_⟩
    simp only [getField_setField, String.reduceEq, if_false]
    exact ⟨h1, ⟨xs, hxs, hne, hall⟩, h3, h4, h5, h6⟩

theorem accepted_total_and_unit_prices_nonneg_witness :
    validate (.object sampleOrder2) = .ok ∧
    ((∃ d, getField "totalAmount" sampleOrder2 = some (.double d) ∧ d.geInt 0 = true) ∧
    (∃ xs, getField "items" sampleOrder2 = some (.array xs) ∧
      ∀ x ∈ xs, ∃ item d, x = .object item ∧
        getField "unitPrice" item = some (.double d) ∧ d.geInt 0 = true) ∧
    (∀ v, validate (.object (setField "taxAmount" v sampleOrder2)) = .ok) ∧
    (∀ v, validate (.object (setField "shippingAmount" v sampleOrder2)) = .ok)) :=
  ⟨by decide, accepted_total_and_unit_prices_nonneg sampleOrder2 (by decide)⟩

/-- C7 (as stated, refuted): an order whose `userId` is the empty string is accepted. -/
theorem empty_userId_accepted :
    validate (.object emptyUserIdOrder) = .ok ∧
    getField "userId" emptyUserIdOrder = some (.string "") :=
  ⟨rfl, rfl⟩

/-- C7 (amended): an accepted order has a `userId` that is a string, so an order whose
`userId` is not a string is rejected; the string may be empty. -/
theorem accepted_userId_is_string (fs : List (String × Bson))
    (hok : validate (.object fs) = .ok) :
    ∃ s, getField "userId" fs = some (.string s) := by
  rw [validate_ok_iff, violations_ordersValidator_iff] at hok
  obtain ⟨fs1, hfs1, h1, -⟩ := hok
  cases hfs1
  exact h1

theorem accepted_userId_is_string_witness :
    validate (.object sampleOrder1) = .ok ∧
    ∃ s, getField "userId" sampleOrder1 = some (.string s) :=
  ⟨by decide, accepted_userId_is_string sampleOrder1 (by decide)⟩

/-! ## Indexes -/

theorem createIndex_of_mem {idx : List Index} {key : List (String × Int)}
    (h : ({ name := indexName key, key := key, unique := false } : Index) ∈ idx) :
    createIndex idx key = (idx, none) := by
  simp [createIndex, h]

theorem createIndex_ok_mem {idx idx2 : List Index} {key : List (String × Int)}
    (h : createIndex idx key = (idx2, none)) :
    ({ name := indexName key, key := key, unique := false } : Index) ∈ idx2 := by
  unfold createIndex at h
  simp only at h
  split at h
  · next hm => cases h; exact hm
  · split at h
    · cases h
    · cases h; simp

theorem createIndex_error_same {idx idx2 : List Index} {key : List (String × Int)} {e : ShellError}
    (h : createIndex idx key = (idx2, some e)) : idx2 = idx := by
  unfold createIndex at h
  simp only at h
  split at h
  · cases h
  · split at h
    · cases h; rfl
    · cases h

theorem createIndex_keeps {idx : List Index} {key : List (String × Int)} {i : Index}
    (h : i ∈ idx) : i ∈ (createIndex idx key).1 := by
  unfold createIndex
  simp only
  split
  · exact h
  · split
    · exact h
    · exact List.mem_append_left _ h

theorem createIndexes_keeps (keys : List (List (String × Int))) {idx : List Index} {i : Index}
    (h : i ∈ idx) : i ∈ (createIndexes keys idx).1 := by
  induction keys generalizing idx with
  | nil => exact h
  | cons k ks ih =>
    unfold createIndexes
    have hk : i ∈ (createIndex idx k).1 := createIndex_keeps h
    split
    · next idx2 heq => rw [heq] at hk; exact ih hk
    · next idx2 e heq => rw [heq] at hk; exact hk

theorem createIndexes_twice (keys : List (List (String × Int))) (idx : List Index) :
    createIndexes keys (createIndexes keys idx).1 = createIndexes keys idx := by
  induction keys generalizing idx with
  | nil => rfl
  | cons k ks ih =>
    cases hc : createIndex idx k with
    | mk idx2 r =>
      cases r with
      | none =>
        have h1 : createIndexes (k :: ks) idx = createIndexes ks idx2 := by
          simp [createIndexes, hc]
        have hmem := createIndexes_keeps ks (createIndex_ok_mem hc)
        rw [h1]
        have h2 : createIndexes (k :: ks) (createIndexes ks idx2).1 =
            createIndexes ks (createIndexes ks idx2).1 := by
          simp [createIndexes, createIndex_of_mem hmem]
        rw [h2, ih]
      | some e =>
        have hsame := createIndex_error_same hc
        subst hsame
        have h1 : createIndexes (k :: ks) idx2 = (idx2, some e) := by
          simp [createIndexes, hc]
        rw [h1]
        exact h1

/-- C8: on the index list of the freshly created `orders` collection the index step adds
exactly the six indexes with keys `userId:1`, `status:1`, `createdAt:-1`,
`userId:1,status:1`, `items.productId:1`, `totalAmount:1`; and from every starting index
list, running the step a second time changes nothing and ends the way the first run did. -/
theorem ensureIndexes_six_and_idempotent :
    ensureIndexes [idIndex] = (ordersIndexes, none) ∧
    ((ensureIndexes [idIndex]).1.filter (fun i => decide (i ≠ idIndex))).map Index.key =
      [ [("userId", 1)], [("status", 1)], [("createdAt", -1)],
        [("userId", 1), ("status", 1)], [("items.productId", 1)], [("totalAmount", 1)] ] ∧
    ∀ idx : List Index,
      (ensureIndexes (ensureIndexes idx).1).1 = (ensureIndexes idx).1 ∧
      ensureIndexes (ensureIndexes idx).1 = ensureIndexes idx :=
  ⟨by decide, by decide, fun idx =>
    ⟨congrArg Prod.fst (createIndexes_twice orderIndexKeys idx),
      createIndexes_twice orderIndexKeys idx⟩⟩

/-! ## The script as a whole -/

theorem initMongo_of_user_exists (db : Db)
    (h : db.users.any (fun w => decide (w.user = "orderservice_user")) = true) :
    initMongo db = (db, some (.userAlreadyExists "orderservice_user")) := by
  simp only [initMongo, List.cons_append, runScript, createUser, orderServiceUser, h, if_true]

/-- C9 (as stated, refuted): the first run on an empty database ends without error; the
second run, on the state the first one left, ends with the error of `createUser`. -/
theorem second_run_fails_at_createUser :
    (initMongo emptyDb).2 = none ∧
    (initMongo (initMongo emptyDb).1).2 = some (.userAlreadyExists "orderservice_user") := by
  decide!

/-- C9 (amended): run again on the state a first run on an empty database left, the script
stops at `createUser` with "user already exists" and leaves that state as it was: still one
user, one collection, seven indexes and three documents. -/
theorem second_run_leaves_state_unchanged :
    initMongo (initMongo emptyDb).1 =
      ((initMongo emptyDb).1, some (.userAlreadyExists "orderservice_user")) ∧
    (initMongo (initMongo emptyDb).1).1.users = [orderServiceUser] ∧
    (initMongo (initMongo emptyDb).1).1.collections.map Collection.name = ["orders"] ∧
    (initMongo (initMongo emptyDb).1).1.collections.map Collection.indexes = [ordersIndexes] ∧
    countDocuments "orders" (initMongo (initMongo emptyDb).1).1 = 3 := by
  have h := initMongo_of_user_exists (initMongo emptyDb).1 (by decide!)
  rw [h]
  exact ⟨rfl, by decide!, by decide!, by decide!, by decide!⟩

/-- C10: each of the three sample documents satisfies the validator (quantities are sent as
`int`, prices and totals as `double`), the first run on an empty database ends without error,
and `orders` then holds exactly three documents. -/
theorem sample_orders_valid_and_inserted :
    (∀ d ∈ sampleOrders, validate (.object d) = .ok) ∧
    (jsNumber 1 0 = .int 1 ∧ jsNumber 2 0 = .int 2 ∧
      jsNumber 129999 2 = .double (.fin 129999 2)) ∧
    (initMongo emptyDb).2 = none ∧
    countDocuments "orders" (initMongo emptyDb).1 = 3 :=
  ⟨by decide, ⟨rfl, rfl, rfl⟩, by decide!, by decide!⟩

end OrderService
